import Mathlib

/-!
Verification development for the `pay-fees` store of the business-ar web
front end (src/web/site/stores/pay-fees.ts).  The file shallowly embeds the
store: TypeScript nullable fields become a three-valued `JsVal` (undefined,
null, value), the reactive refs of the store become the fields of an
explicit `PayFeesState` record, remote services become oracle parameters,
the alert sink and console.error become instrumentation fields of the
state, and the UUID generator becomes a fresh-counter supply.  The source
file contains two textually duplicated revisions of the store; the first
revision is embedded at top level and the second in namespace `Rev2`.
-/

/-- A TypeScript value that may be `undefined`, `null`, or a proper value.
Decidable equality of `JsVal` coincides with the strict equality used by
the store (undefined is strictly equal only to undefined, null only to
null). -/
inductive JsVal (α : Type) where
  | undef : JsVal α
  | null : JsVal α
  | val : α → JsVal α
deriving DecidableEq, Repr

/-- JavaScript loose comparison with null (x == null), true exactly for
undefined and null. -/
def JsVal.isNullish {α : Type} : JsVal α → Bool
  | JsVal.undef => true
  | JsVal.null => true
  | JsVal.val _ => false

/-- JavaScript truthiness for a string-valued field: null, undefined and
the empty string are falsy. -/
def JsVal.strTruthy : JsVal String → Bool
  | JsVal.val s => !(s == "")
  | _ => false

/-- The FeeInfo record, restricted to the fields the store reads:
filingType, filingTypeCode, total and filingFees.  Each field is nullable
in the TypeScript interface. -/
structure FeeInfo where
  filingType : JsVal String
  filingTypeCode : JsVal String
  total : JsVal Int
  filingFees : JsVal Int
deriving DecidableEq, Repr

/-- A fee line item of the ledger: PayFeesWidgetItem = FeeInfo plus an
optional quantity and a uiUuid.  The spread in the source
(push with quantity 1 and a fresh UUID) copies the FeeInfo fields, held
here in the `fee` component.  quantity has TypeScript type
number | undefined, modelled as Option Int; uiUuid is drawn from a
fresh-counter supply. -/
structure PayFeesWidgetItem where
  fee : FeeInfo
  quantity : Option Int
  uiUuid : Nat
deriving DecidableEq, Repr

/-- A filing-data descriptor, restricted to the two fields the store
compares: entityType and filingTypeCode. -/
structure FeeData where
  entityType : JsVal String
  filingTypeCode : JsVal String
deriving DecidableEq, Repr

/-- PaymentMethod enum of the source (closed set). -/
inductive PaymentMethod where
  | DIRECT_PAY : PaymentMethod
  | PAD : PaymentMethod
deriving DecidableEq, Repr

/-- Alert categories used by the store. -/
inductive AlertCategory where
  | PAYMENT_METHOD : AlertCategory
  | FEE_INFO : AlertCategory
deriving DecidableEq, Repr

/-- An alert record passed to the alert sink. -/
structure Alert where
  severity : String
  category : AlertCategory
deriving DecidableEq, Repr

/-- The cfsAccount fragment of a payment account, restricted to the fields
the store reads. -/
structure CfsAccount where
  status : JsVal String
  bankAccountNumber : JsVal String
deriving DecidableEq, Repr

/-- The ConnectPayAccount snapshot, restricted to the fields the store
reads.  paymentMethod is only read by the second revision. -/
structure ConnectPayAccount where
  cfsAccount : JsVal CfsAccount
  paymentMethod : JsVal PaymentMethod
deriving DecidableEq, Repr

/-- The empty object cast to ConnectPayAccount used by the source: every
field is undefined. -/
def emptyAccount : ConnectPayAccount :=
  { cfsAccount := JsVal.undef, paymentMethod := JsVal.undef }

/-- The complete state of the store.  fees, folioNumber, feeInfo,
userPaymentAccount, userSelectedPaymentMethod, allowAlternatePaymentMethod
and allowedPaymentMethods are the refs of the source.  alerts records the
calls to the alert sink (oldest first), consoleErrors counts the
console.error diagnostics, nextUuid is the fresh supply behind UUIDv4,
and fetchCalls counts the invocations of payApi.fetchFee. -/
@[ext]
structure PayFeesState where
  fees : List PayFeesWidgetItem
  folioNumber : String
  feeInfo : List (FeeData × FeeInfo)
  userPaymentAccount : ConnectPayAccount
  userSelectedPaymentMethod : PaymentMethod
  allowAlternatePaymentMethod : Bool
  allowedPaymentMethods : List (String × PaymentMethod)
  alerts : List Alert
  consoleErrors : Nat
  nextUuid : Nat
  fetchCalls : Nat
deriving DecidableEq, Repr

/-- The initial state of the store: all refs at their declared initial
values. -/
def initialState : PayFeesState :=
  { fees := []
    folioNumber := ""
    feeInfo := []
    userPaymentAccount := emptyAccount
    userSelectedPaymentMethod := PaymentMethod.DIRECT_PAY
    allowAlternatePaymentMethod := false
    allowedPaymentMethods := []
    alerts := []
    consoleErrors := 0
    nextUuid := 0
    fetchCalls := 0 }

/-- The alert record pushed by the payment-method failure paths. -/
def paymentAlert : Alert :=
  { severity := "error", category := AlertCategory.PAYMENT_METHOD }

/-- The alert record pushed by the addPayFees catch handler. -/
def feeInfoAlert : Alert :=
  { severity := "error", category := AlertCategory.FEE_INFO }

/-- The uniqueness-key predicate of addFee and removeFee: the candidate
ledger entry strictly equals the argument on filingType and
filingTypeCode. -/
def feeMatches (target : FeeInfo) (fee : PayFeesWidgetItem) : Bool :=
  fee.fee.filingType == target.filingType &&
    fee.fee.filingTypeCode == target.filingTypeCode

/-- The cache-key predicate of getFeeInfo: equality on entityType and
filingTypeCode of the cached descriptor. -/
def feeInfoMatches (search : FeeData) (entry : FeeData × FeeInfo) : Bool :=
  entry.1.entityType == search.entityType &&
    entry.1.filingTypeCode == search.filingTypeCode

/-- The validation of addFee: the fee is rejected when total, filingFees
or filingTypeCode is loosely equal to null (null or undefined).  The
source also tests !newFee, which is always false for an object
argument. -/
def invalidFee (f : FeeInfo) : Bool :=
  f.total.isNullish || f.filingFees.isNullish || f.filingTypeCode.isNullish

/-- In-place mutation of the first element satisfying p, as performed on
the element returned by Array.prototype.find. -/
def updateFirst {α : Type} (p : α → Bool) (f : α → α) : List α → List α
  | [] => []
  | x :: xs => if p x then f x :: xs else x :: updateFirst p f xs

/-- The quantity mutation of the addFee found-branch: quantity undefined
becomes 1, quantity n becomes n + 1. -/
def bumpQuantity (x : PayFeesWidgetItem) : PayFeesWidgetItem :=
  match x.quantity with
  | none => { x with quantity := some 1 }
  | some n => { x with quantity := some (n + 1) }

/-- The quantity mutation of the removeFee decrement branch. -/
def decQuantity (x : PayFeesWidgetItem) : PayFeesWidgetItem :=
  { x with quantity := x.quantity.map (fun n => n - 1) }

/-- Array.prototype.findIndex, with none standing for the sentinel -1. -/
def firstIdx {α : Type} (p : α → Bool) : List α → Option Nat
  | [] => none
  | x :: xs => if p x then some 0 else (firstIdx p xs).map (fun i => i + 1)

/-- Array.prototype.splice(i, 1): remove the element at index i. -/
def spliceOne {α : Type} : List α → Nat → List α
  | [], _ => []
  | _ :: xs, 0 => xs
  | x :: xs, n + 1 => x :: spliceOne xs n

/-- addFee of the first revision.  The source first searches for an
existing entry by the uniqueness key; when one is found its quantity is
mutated (undefined becomes 1, n becomes n + 1) with no validation; only
when no entry matches is the fee validated, an invalid fee being logged
and dropped, a valid fee appended with quantity 1 and a fresh uiUuid. -/
def addFee (s : PayFeesState) (newFee : FeeInfo) : PayFeesState :=
  match s.fees.find? (feeMatches newFee) with
  | some _ =>
    { s with fees := updateFirst (feeMatches newFee) bumpQuantity s.fees }
  | none =>
    if invalidFee newFee then
      { s with consoleErrors := s.consoleErrors + 1 }
    else
      { s with
        fees := s.fees ++ [{ fee := newFee, quantity := some 1, uiUuid := s.nextUuid }]
        nextUuid := s.nextUuid + 1 }

/-- removeFee of the first revision.  When the first matching entry has a
truthy quantity strictly greater than 1 it is decremented in place;
otherwise the first matching index is spliced out; when nothing matches
the operation is a no-op. -/
def removeFee (s : PayFeesState) (feeToRemove : FeeInfo) : PayFeesState :=
  let decCond :=
    match s.fees.find? (feeMatches feeToRemove) with
    | some fee =>
      match fee.quantity with
      | some n => !(n == 0) && decide (1 < n)
      | none => false
    | none => false
  if decCond then
    { s with fees := updateFirst (feeMatches feeToRemove) decQuantity s.fees }
  else
    match firstIdx (feeMatches feeToRemove) s.fees with
    | some i => { s with fees := spliceOne s.fees i }
    | none => s

/-- The body of the for-loop of loadFeeTypesAndCharges: each item causes
one fetchFee call; a defined result is appended to the cache, an undefined
result is skipped. -/
def loadLoop (fetchFee : FeeData → Option FeeInfo) (s : PayFeesState) :
    List FeeData → PayFeesState
  | [] => s
  | item :: rest =>
    let s1 := { s with fetchCalls := s.fetchCalls + 1 }
    let s2 :=
      match fetchFee item with
      | some fee => { s1 with feeInfo := s1.feeInfo ++ [(item, fee)] }
      | none => s1
    loadLoop fetchFee s2 rest

/-- loadFeeTypesAndCharges of the first revision: record the folio number,
then fetch each descriptor of the batch strictly in list order.  The
remote resolver payApi.fetchFee is not part of the sources; modelled from
the spec as an oracle FeeData to Option FeeInfo whose failures surface as
undefined and must not crash the batch loop. -/
def loadFeeTypesAndCharges (fetchFee : FeeData → Option FeeInfo)
    (s : PayFeesState) (newFolioNumber : String) (filingData : List FeeData) :
    PayFeesState :=
  loadLoop fetchFee { s with folioNumber := newFolioNumber } filingData

/-- getFeeInfo of the first revision: return the first cached entry whose
descriptor matches; on a miss with tryLoadIfNotCached, load the single
descriptor and retry exactly once with tryLoadIfNotCached false. -/
def getFeeInfo (fetchFee : FeeData → Option FeeInfo) (s : PayFeesState)
    (searchFilingData : FeeData) (tryLoadIfNotCached : Bool := true) :
    Option FeeInfo × PayFeesState :=
  match s.feeInfo.find? (feeInfoMatches searchFilingData) with
  | some feeInfoItem => (some feeInfoItem.2, s)
  | none =>
    match tryLoadIfNotCached with
    | true =>
      let s1 := loadFeeTypesAndCharges fetchFee s s.folioNumber [searchFilingData]
      getFeeInfo fetchFee s1 searchFilingData false
    | false => (none, s)
termination_by tryLoadIfNotCached.toNat

/-- addPayFees of the first revision: resolve the fee code through the
static payApi.feeType table (an oracle, since pay-api is not part of the
sources), fetch the FeeInfo through the cache-or-load path, and add it to
the ledger when found.  Modelled from the spec: an unknown fee code makes
the resolution fail, the failure is swallowed by the catch handler and
surfaces only as a FEE_INFO alert with the ledger unchanged. -/
def addPayFees (fetchFee : FeeData → Option FeeInfo)
    (feeType : String → Option FeeData) (s : PayFeesState) (feeCode : String) :
    PayFeesState :=
  match feeType feeCode with
  | none => { s with alerts := s.alerts ++ [feeInfoAlert] }
  | some fee =>
    let r := getFeeInfo fetchFee s fee true
    match r.1 with
    | some fi => addFee r.2 fi
    | none => r.2

/-- The PAD_PENDING_STATES constant (the enum values are these strings in
both revisions). -/
def PAD_PENDING_STATES : List String :=
  ["PENDING", "PENDING_PAD_ACTIVATION"]

/-- The condition of the watch callback: the optional chain
userPaymentAccount.cfsAccount and its status are truthy and the status is
listed in PAD_PENDING_STATES. -/
def padPendingWatch (s : PayFeesState) : Bool :=
  match s.userPaymentAccount.cfsAccount with
  | JsVal.val cfs => cfs.status.strTruthy &&
      (match cfs.status with
       | JsVal.val st => PAD_PENDING_STATES.contains st
       | _ => false)
  | _ => false

/-- One run of the watch callback on userSelectedPaymentMethod, with fuel
bounding the re-entrant runs the Vue scheduler allows.  The corrective
write inside the body re-triggers the watcher exactly when it changes the
value (Vue compares with Object.is); after the write the callback pushes a
PAYMENT_METHOD alert unconditionally. -/
def watchRun : Nat → PayFeesState → PayFeesState
  | 0, s => s
  | fuel + 1, s =>
    if padPendingWatch s then
      let s1 :=
        if s.userSelectedPaymentMethod = PaymentMethod.DIRECT_PAY then s
        else watchRun fuel { s with userSelectedPaymentMethod := PaymentMethod.DIRECT_PAY }
      { s1 with alerts := s1.alerts ++ [paymentAlert] }
    else s

/-- Fuel sufficient for every chain of watcher runs: a run only re-fires
when its write changes the value, and after that write the value is
DIRECT_PAY, so the next run cannot re-fire again. -/
def watchFuel : Nat := 2

/-- An assignment to userSelectedPaymentMethod: the watcher fires exactly
when the value changes. -/
def setUserSelectedPaymentMethod (s : PayFeesState) (m : PaymentMethod) :
    PayFeesState :=
  if s.userSelectedPaymentMethod = m then s
  else watchRun watchFuel { s with userSelectedPaymentMethod := m }

/-- resetPaymentOptions of the first revision: clear the account snapshot,
select PAD, clear the alternate flag and the allowed list.  The write to
the selected method goes through the watcher, whose condition is already
false because the snapshot was cleared first. -/
def resetPaymentOptions (s : PayFeesState) : PayFeesState :=
  let s1 := { s with userPaymentAccount := emptyAccount }
  let s2 := setUserSelectedPaymentMethod s1 PaymentMethod.PAD
  { s2 with allowAlternatePaymentMethod := false, allowedPaymentMethods := [] }

/-- The pending-state test of initPaymentMethod (line 80): a bare
includes on the optional chain, with no separate truthiness test;
includes of undefined in a list of strings is false. -/
def padPendingInit (response : ConnectPayAccount) : Bool :=
  match response.cfsAccount with
  | JsVal.val cfs =>
    match cfs.status with
    | JsVal.val st => PAD_PENDING_STATES.contains st
    | _ => false
  | _ => false

/-- initPaymentMethod of the first revision.  The remote account lookup
(useBarApi, not part of the sources) is an oracle Except Unit
ConnectPayAccount: ok is a resolved snapshot, error a thrown failure that
lands in the catch handler, which logs and alerts, leaving the state as
resetPaymentOptions produced it. -/
def initPaymentMethod (fetchAccount : Except Unit ConnectPayAccount)
    (s : PayFeesState) : PayFeesState :=
  let s1 := resetPaymentOptions s
  match fetchAccount with
  | Except.error _ =>
    { s1 with
      consoleErrors := s1.consoleErrors + 1
      alerts := s1.alerts ++ [paymentAlert] }
  | Except.ok response =>
    let s2 := { s1 with userPaymentAccount := response }
    let accountNum :=
      match response.cfsAccount with
      | JsVal.val cfs =>
        (match cfs.bankAccountNumber with
         | JsVal.val n => n
         | _ => "")
      | _ => ""
    let s3 := { s2 with
      allowedPaymentMethods :=
        [("Credit Card", PaymentMethod.DIRECT_PAY),
         ("PAD Account " ++ accountNum, PaymentMethod.PAD)] }
    let s4 :=
      if padPendingInit response then
        setUserSelectedPaymentMethod s3 PaymentMethod.DIRECT_PAY
      else s3
    { s4 with allowAlternatePaymentMethod := true }

/-- The $reset action of the first revision: clear the fee list, the folio
number and the fee-info cache, and nothing else. -/
def resetStore (s : PayFeesState) : PayFeesState :=
  { s with fees := [], folioNumber := "", feeInfo := [] }

namespace Rev2

/-- addFee of the second revision (textually identical logic to the first
revision). -/
def addFee (s : PayFeesState) (newFee : FeeInfo) : PayFeesState :=
  match s.fees.find? (feeMatches newFee) with
  | some _ =>
    { s with fees := updateFirst (feeMatches newFee) bumpQuantity s.fees }
  | none =>
    if invalidFee newFee then
      { s with consoleErrors := s.consoleErrors + 1 }
    else
      { s with
        fees := s.fees ++ [{ fee := newFee, quantity := some 1, uiUuid := s.nextUuid }]
        nextUuid := s.nextUuid + 1 }

/-- removeFee of the second revision. -/
def removeFee (s : PayFeesState) (feeToRemove : FeeInfo) : PayFeesState :=
  let decCond :=
    match s.fees.find? (feeMatches feeToRemove) with
    | some fee =>
      match fee.quantity with
      | some n => !(n == 0) && decide (1 < n)
      | none => false
    | none => false
  if decCond then
    { s with fees := updateFirst (feeMatches feeToRemove) decQuantity s.fees }
  else
    match firstIdx (feeMatches feeToRemove) s.fees with
    | some i => { s with fees := spliceOne s.fees i }
    | none => s

/-- The for-loop body of the second revision loadFeeTypesAndCharges. -/
def loadLoop (fetchFee : FeeData → Option FeeInfo) (s : PayFeesState) :
    List FeeData → PayFeesState
  | [] => s
  | item :: rest =>
    let s1 := { s with fetchCalls := s.fetchCalls + 1 }
    let s2 :=
      match fetchFee item with
      | some fee => { s1 with feeInfo := s1.feeInfo ++ [(item, fee)] }
      | none => s1
    loadLoop fetchFee s2 rest

/-- loadFeeTypesAndCharges of the second revision. -/
def loadFeeTypesAndCharges (fetchFee : FeeData → Option FeeInfo)
    (s : PayFeesState) (newFolioNumber : String) (filingData : List FeeData) :
    PayFeesState :=
  Rev2.loadLoop fetchFee { s with folioNumber := newFolioNumber } filingData

/-- getFeeInfo of the second revision. -/
def getFeeInfo (fetchFee : FeeData → Option FeeInfo) (s : PayFeesState)
    (searchFilingData : FeeData) (tryLoadIfNotCached : Bool := true) :
    Option FeeInfo × PayFeesState :=
  match s.feeInfo.find? (feeInfoMatches searchFilingData) with
  | some feeInfoItem => (some feeInfoItem.2, s)
  | none =>
    match tryLoadIfNotCached with
    | true =>
      let s1 := Rev2.loadFeeTypesAndCharges fetchFee s s.folioNumber [searchFilingData]
      Rev2.getFeeInfo fetchFee s1 searchFilingData false
    | false => (none, s)
termination_by tryLoadIfNotCached.toNat

/-- addPayFees of the second revision. -/
def addPayFees (fetchFee : FeeData → Option FeeInfo)
    (feeType : String → Option FeeData) (s : PayFeesState) (feeCode : String) :
    PayFeesState :=
  match feeType feeCode with
  | none => { s with alerts := s.alerts ++ [feeInfoAlert] }
  | some fee =>
    let r := Rev2.getFeeInfo fetchFee s fee true
    match r.1 with
    | some fi => Rev2.addFee r.2 fi
    | none => r.2

/-- resetPaymentOptions of the second revision: it selects DIRECT_PAY
where the first revision selects PAD.  The watch block of the second
revision is textually identical to the first, so the shared watcher model
is reused. -/
def resetPaymentOptions (s : PayFeesState) : PayFeesState :=
  let s1 := { s with userPaymentAccount := emptyAccount }
  let s2 := setUserSelectedPaymentMethod s1 PaymentMethod.DIRECT_PAY
  { s2 with allowAlternatePaymentMethod := false, allowedPaymentMethods := [] }

/-- The $reset action of the second revision. -/
def resetStore (s : PayFeesState) : PayFeesState :=
  { s with fees := [], folioNumber := "", feeInfo := [] }

end Rev2

/-- A single Fee Ledger mutation, used to state the reachability
invariant. -/
inductive LedgerOp where
  | add : FeeInfo → LedgerOp
  | remove : FeeInfo → LedgerOp

/-- Apply one ledger operation to the store state. -/
def applyOp (s : PayFeesState) : LedgerOp → PayFeesState
  | LedgerOp.add f => addFee s f
  | LedgerOp.remove f => removeFee s f

/-- Run a sequence of ledger operations from a starting state. -/
def runOps (s : PayFeesState) : List LedgerOp → PayFeesState
  | [] => s
  | op :: ops => runOps (applyOp s op) ops

/-- The uniqueness key of a ledger entry: the (filingType, filingTypeCode)
pair. -/
def feeKey (x : PayFeesWidgetItem) : JsVal String × JsVal String :=
  (x.fee.filingType, x.fee.filingTypeCode)

/-- A well-formed quantity: defined and at least 1. -/
def quantityOk (x : PayFeesWidgetItem) : Bool :=
  match x.quantity with
  | some n => decide (1 ≤ n)
  | none => false

/-- The ledger invariant: pairwise distinct uniqueness keys and every
quantity defined and at least 1. -/
def goodLedger (l : List PayFeesWidgetItem) : Prop :=
  (l.map feeKey).Nodup ∧ ∀ x ∈ l, quantityOk x = true

/-- A fully populated sample fee (the BCANN annual-report fee of the
spec scenarios). -/
def sampleFee : FeeInfo :=
  { filingType := JsVal.val "Annual Report"
    filingTypeCode := JsVal.val "BCANN"
    total := JsVal.val 20
    filingFees := JsVal.val 20 }

/-- A ledger entry for sampleFee with quantity 1. -/
def sampleItem : PayFeesWidgetItem :=
  { fee := sampleFee, quantity := some 1, uiUuid := 0 }

/-- A malformed fee sharing the uniqueness key of sampleFee: its total is
null. -/
def nullTotalFee : FeeInfo :=
  { filingType := JsVal.val "Annual Report"
    filingTypeCode := JsVal.val "BCANN"
    total := JsVal.null
    filingFees := JsVal.val 20 }

/-- A state whose ledger already holds sampleFee with quantity 1. -/
def ledgerWithSample : PayFeesState :=
  { initialState with fees := [sampleItem], nextUuid := 1 }

/-- A state whose ledger holds an entry with undefined quantity (the
TypeScript type of quantity admits undefined). -/
def ledgerUndefQuantity : PayFeesState :=
  { initialState with
    fees := [{ fee := sampleFee, quantity := none, uiUuid := 0 }]
    nextUuid := 1 }

/-- A state whose cached account snapshot is in PENDING_PAD_ACTIVATION and
whose selected method is DIRECT_PAY. -/
def pendingPadState : PayFeesState :=
  { initialState with
    userPaymentAccount :=
      { cfsAccount :=
          JsVal.val
            { status := JsVal.val "PENDING_PAD_ACTIVATION"
              bankAccountNumber := JsVal.undef }
        paymentMethod := JsVal.val PaymentMethod.PAD } }

/-- A sample descriptor for the fee-info cache. -/
def sampleFeeData : FeeData :=
  { entityType := JsVal.val "BC", filingTypeCode := JsVal.val "BCANN" }

/-- A state whose fee-info cache already holds sampleFeeData. -/
def cachedState : PayFeesState :=
  { initialState with feeInfo := [(sampleFeeData, sampleFee)] }

/-- An oracle that knows no fee at all (every fetch fails or resolves to
undefined). -/
def emptyOracle : FeeData → Option FeeInfo := fun _ => none

/-- Decomposition of a successful find?: the list splits at the first
match. -/
theorem find?_decomp {α : Type} {p : α → Bool} {l : List α} {a : α}
    (h : l.find? p = some a) :
    ∃ l₁ l₂, l = l₁ ++ a :: l₂ ∧ (∀ x ∈ l₁, p x = false) ∧ p a = true := by
  induction l with
  | nil => simp [List.find?] at h
  | cons x xs ih =>
    cases hx : p x with
    | true =>
      rw [List.find?_cons, hx] at h
      have hxa : x = a := Option.some.inj h
      subst hxa
      exact ⟨[], xs, rfl, by simp, hx⟩
    | false =>
      rw [List.find?_cons, hx] at h
      obtain ⟨l₁, l₂, hl, hall, hpa⟩ := ih h
      refine ⟨x :: l₁, l₂, by simp [hl], ?_, hpa⟩
      intro y hy
      rcases List.mem_cons.mp hy with rfl | hy2
      · exact hx
      · exact hall y hy2

/-- find? over a split list whose left part has no match. -/
theorem find?_middle {α : Type} {p : α → Bool} {l₁ : List α} {a : α}
    (l₂ : List α) (hall : ∀ x ∈ l₁, p x = false) (ha : p a = true) :
    (l₁ ++ a :: l₂).find? p = some a := by
  induction l₁ with
  | nil => simp [List.find?_cons, ha]
  | cons x xs ih =>
    have hx : p x = false := hall x (by simp)
    simp only [List.cons_append, List.find?_cons, hx]
    exact ih (fun y hy => hall y (by simp [hy]))

/-- find? is none when no element matches. -/
theorem find?_none {α : Type} {p : α → Bool} {l : List α}
    (hall : ∀ x ∈ l, p x = false) : l.find? p = none := by
  induction l with
  | nil => rfl
  | cons x xs ih =>
    have hx : p x = false := hall x (by simp)
    simp only [List.find?_cons, hx]
    exact ih (fun y hy => hall y (by simp [hy]))

/-- updateFirst over a split list whose left part has no match rewrites
exactly the split point. -/
theorem updateFirst_middle {α : Type} {p : α → Bool} (f : α → α)
    {l₁ : List α} {a : α} (l₂ : List α)
    (hall : ∀ x ∈ l₁, p x = false) (ha : p a = true) :
    updateFirst p f (l₁ ++ a :: l₂) = l₁ ++ f a :: l₂ := by
  induction l₁ with
  | nil => simp [updateFirst, ha]
  | cons x xs ih =>
    have hx : p x = false := hall x (by simp)
    simp only [List.cons_append, updateFirst, hx]
    simp [ih (fun y hy => hall y (by simp [hy]))]

/-- firstIdx over a split list whose left part has no match yields the
length of the left part. -/
theorem firstIdx_middle {α : Type} {p : α → Bool} {l₁ : List α} {a : α}
    (l₂ : List α) (hall : ∀ x ∈ l₁, p x = false) (ha : p a = true) :
    firstIdx p (l₁ ++ a :: l₂) = some l₁.length := by
  induction l₁ with
  | nil => simp [firstIdx, ha]
  | cons x xs ih =>
    have hx : p x = false := hall x (by simp)
    simp only [List.cons_append, firstIdx, hx]
    simp [ih (fun y hy => hall y (by simp [hy]))]

/-- firstIdx is none when no element matches. -/
theorem firstIdx_none {α : Type} {p : α → Bool} {l : List α}
    (hall : ∀ x ∈ l, p x = false) : firstIdx p l = none := by
  induction l with
  | nil => rfl
  | cons x xs ih =>
    have hx : p x = false := hall x (by simp)
    simp only [firstIdx, hx]
    simp [ih (fun y hy => hall y (by simp [hy]))]

/-- spliceOne at the split index removes exactly the split element. -/
theorem spliceOne_middle {α : Type} (l₁ : List α) (a : α) (l₂ : List α) :
    spliceOne (l₁ ++ a :: l₂) l₁.length = l₁ ++ l₂ := by
  induction l₁ with
  | nil => rfl
  | cons x xs ih => simp [spliceOne, ih]

/-- The match predicate of addFee and removeFee holds exactly when the
entry carries the uniqueness key of the argument. -/
theorem feeMatches_iff (t : FeeInfo) (x : PayFeesWidgetItem) :
    feeMatches t x = true ↔ feeKey x = (t.filingType, t.filingTypeCode) := by
  simp [feeMatches, feeKey, Prod.ext_iff]

/-- bumpQuantity does not change the uniqueness key. -/
theorem feeKey_bumpQuantity (x : PayFeesWidgetItem) :
    feeKey (bumpQuantity x) = feeKey x := by
  cases hq : x.quantity <;> simp [bumpQuantity, hq, feeKey]

/-- decQuantity does not change the uniqueness key. -/
theorem feeKey_decQuantity (x : PayFeesWidgetItem) :
    feeKey (decQuantity x) = feeKey x := rfl

/-- bumpQuantity preserves a well-formed quantity. -/
theorem quantityOk_bumpQuantity {x : PayFeesWidgetItem}
    (h : quantityOk x = true) : quantityOk (bumpQuantity x) = true := by
  cases hq : x.quantity with
  | none => simp [bumpQuantity, hq, quantityOk]
  | some n =>
    simp [quantityOk, hq] at h
    simp [bumpQuantity, hq, quantityOk]
    omega

/-- A none result of find? means no element matches. -/
theorem all_false_of_find?_none {α : Type} {p : α → Bool} {l : List α}
    (h : l.find? p = none) : ∀ x ∈ l, p x = false := by
  induction l with
  | nil => simp
  | cons x xs ih =>
    cases hx : p x with
    | true => rw [List.find?_cons, hx] at h; exact absurd h (by simp)
    | false =>
      rw [List.find?_cons, hx] at h
      intro y hy
      rcases List.mem_cons.mp hy with rfl | hy2
      · exact hx
      · exact ih h y hy2

/-- Removing the middle element preserves the ledger invariant. -/
theorem goodLedger_middle_erase {l₁ : List PayFeesWidgetItem}
    {a : PayFeesWidgetItem} {l₂ : List PayFeesWidgetItem}
    (h : goodLedger (l₁ ++ a :: l₂)) : goodLedger (l₁ ++ l₂) := by
  obtain ⟨hnd, hq⟩ := h
  constructor
  · simp only [List.map_append, List.map_cons, List.nodup_append] at hnd ⊢
    obtain ⟨h1, h2, h3⟩ := hnd
    refine ⟨h1, (List.nodup_cons.mp h2).2, ?_⟩
    intro k hk1 hk2
    exact h3 hk1 (by simp [hk2])
  · intro x hx
    rcases List.mem_append.mp hx with h1 | h2
    · exact hq x (by simp [h1])
    · exact hq x (by simp [h2])

/-- Replacing the middle element by one with the same key and a
well-formed quantity preserves the ledger invariant. -/
theorem goodLedger_middle_update {l₁ : List PayFeesWidgetItem}
    {a b : PayFeesWidgetItem} {l₂ : List PayFeesWidgetItem}
    (hk : feeKey b = feeKey a) (hqb : quantityOk b = true)
    (h : goodLedger (l₁ ++ a :: l₂)) : goodLedger (l₁ ++ b :: l₂) := by
  obtain ⟨hnd, hq⟩ := h
  constructor
  · simpa only [List.map_append, List.map_cons, hk] using hnd
  · intro x hx
    rcases List.mem_append.mp hx with h1 | h2
    · exact hq x (by simp [h1])
    · rcases List.mem_cons.mp h2 with rfl | h3
      · exact hqb
      · exact hq x (by simp [h3])

/-- addFee preserves the ledger invariant. -/
theorem goodLedger_addFee (s : PayFeesState) (f : FeeInfo)
    (h : goodLedger s.fees) : goodLedger (addFee s f).fees := by
  unfold addFee
  cases hf : s.fees.find? (feeMatches f) with
  | none =>
    by_cases hv : invalidFee f
    · simpa [hv] using h
    · simp only [hv, Bool.false_eq_true, if_false]
      obtain ⟨hnd, hq⟩ := h
      have hall := all_false_of_find?_none hf
      constructor
      · simp only [List.map_append, List.map_cons, List.map_nil,
          List.nodup_append, List.nodup_cons]
        refine ⟨hnd, by simp, ?_⟩
        intro k hk1 hk2
        obtain ⟨x, hx, hkx⟩ := List.mem_map.mp hk1
        simp only [List.mem_cons, List.not_mem_nil, or_false] at hk2
        have : feeMatches f x = true := by
          rw [feeMatches_iff]
          rw [hkx, hk2]
          rfl
        rw [hall x hx] at this
        exact absurd this (by simp)
      · intro x hx
        rcases List.mem_append.mp hx with h1 | h2
        · exact hq x h1
        · simp only [List.mem_cons, List.not_mem_nil, or_false] at h2
          subst h2
          rfl
  | some a =>
    obtain ⟨l₁, l₂, hl, hall, hpa⟩ := find?_decomp hf
    rw [hl, updateFirst_middle bumpQuantity l₂ hall hpa]
    rw [hl] at h
    have hqa : quantityOk a = true := h.2 a (by simp)
    exact goodLedger_middle_update (feeKey_bumpQuantity a)
      (quantityOk_bumpQuantity hqa) h

/-- removeFee preserves the ledger invariant. -/
theorem goodLedger_removeFee (s : PayFeesState) (f : FeeInfo)
    (h : goodLedger s.fees) : goodLedger (removeFee s f).fees := by
  unfold removeFee
  cases hf : s.fees.find? (feeMatches f) with
  | none =>
    have hall := all_false_of_find?_none hf
    simp only [firstIdx_none hall]
    exact h
  | some a =>
    obtain ⟨l₁, l₂, hl, hallm, hpa⟩ := find?_decomp hf
    rw [hl] at h
    cases hq : a.quantity with
    | none =>
      simp only [hq, hl, firstIdx_middle l₂ hallm hpa, spliceOne_middle]
      exact goodLedger_middle_erase h
    | some n =>
      by_cases hc : (!(n == 0) && decide (1 < n)) = true
      · simp only [hq, hc, if_true, hl, updateFirst_middle decQuantity l₂ hallm hpa]
        refine goodLedger_middle_update (feeKey_decQuantity a) ?_ h
        simp only [Bool.and_eq_true, bne_iff_ne, decide_eq_true_eq] at hc
        simp [decQuantity, quantityOk, hq]
        omega
      · simp only [hq, hc, Bool.false_eq_true, if_false, hl,
          firstIdx_middle l₂ hallm hpa, spliceOne_middle]
        exact goodLedger_middle_erase h

/-- Any run of ledger operations preserves the invariant. -/
theorem goodLedger_runOps (ops : List LedgerOp) :
    ∀ s : PayFeesState, goodLedger s.fees → goodLedger (runOps s ops).fees := by
  induction ops with
  | nil => intro s h; exact h
  | cons op ops ih =>
    intro s h
    cases op with
    | add f => exact ih (addFee s f) (goodLedger_addFee s f h)
    | remove f => exact ih (removeFee s f) (goodLedger_removeFee s f h)

/-- C1: for every sequence of addFee and removeFee calls starting from the
empty ledger, the fees list never holds two entries with the same
(filingType, filingTypeCode) key, and every entry present has a defined
quantity of at least 1. -/
theorem c1_ledger_invariant (s : PayFeesState) (h : s.fees = [])
    (ops : List LedgerOp) : goodLedger (runOps s ops).fees := by
  apply goodLedger_runOps
  rw [h]
  exact ⟨by simp, by simp⟩

/-- Witness for C1 at a concrete run: two adds and one remove of the
sample fee from the initial state. -/
theorem c1_ledger_invariant_witness :
    goodLedger (runOps initialState
      [LedgerOp.add sampleFee, LedgerOp.add sampleFee,
       LedgerOp.remove sampleFee]).fees :=
  c1_ledger_invariant initialState rfl
    [LedgerOp.add sampleFee, LedgerOp.add sampleFee,
     LedgerOp.remove sampleFee]

/-- C2 counterexample: a malformed fee item (total is null) whose
uniqueness key matches an entry already in the ledger.  addFee mutates the
ledger (the entry quantity is incremented) and logs no diagnostic, so the
claim that a malformed item always leaves the ledger unchanged with a
logged diagnostic is false.  The matching ledger state is itself reachable
by one valid addFee from the empty ledger. -/
theorem c2_counterexample :
    invalidFee nullTotalFee = true ∧
      ledgerWithSample = addFee initialState sampleFee ∧
      (addFee ledgerWithSample nullTotalFee).fees ≠ ledgerWithSample.fees ∧
      (addFee ledgerWithSample nullTotalFee).consoleErrors =
        ledgerWithSample.consoleErrors := by
  refine ⟨by decide, by decide, by decide, by decide⟩

/-- C2 amended: when the malformed fee item matches no entry of the
ledger by its uniqueness key, addFee logs one diagnostic and changes
nothing else; no exception reaches the caller.  When a matching entry
exists, validation is skipped and the quantity of that entry is
incremented. -/
theorem c2_invalid_addFee_noop (s : PayFeesState) (item : FeeInfo)
    (hinv : invalidFee item = true)
    (hmiss : s.fees.find? (feeMatches item) = none) :
    addFee s item = { s with consoleErrors := s.consoleErrors + 1 } := by
  unfold addFee
  rw [hmiss, hinv]
  simp

/-- Witness for C2 amended at the empty ledger and the null-total fee. -/
theorem c2_invalid_addFee_noop_witness :
    addFee initialState nullTotalFee =
      { initialState with consoleErrors := initialState.consoleErrors + 1 } :=
  c2_invalid_addFee_noop initialState nullTotalFee (by decide) (by decide)

/-- The unfolding equation of a fuelled watcher run. -/
theorem watchRun_succ (fuel : Nat) (s : PayFeesState) :
    watchRun (fuel + 1) s =
      if padPendingWatch s then
        (let s1 :=
          if s.userSelectedPaymentMethod = PaymentMethod.DIRECT_PAY then s
          else watchRun fuel
            { s with userSelectedPaymentMethod := PaymentMethod.DIRECT_PAY }
         { s1 with alerts := s1.alerts ++ [paymentAlert] })
      else s := rfl

/-- A watcher run with nonzero fuel on a state already selecting
DIRECT_PAY never recurses: its corrective write does not change the
value. -/
theorem watchRun_direct (fuel : Nat) (s : PayFeesState) (hf : fuel ≠ 0)
    (h : s.userSelectedPaymentMethod = PaymentMethod.DIRECT_PAY) :
    watchRun fuel s =
      if padPendingWatch s then { s with alerts := s.alerts ++ [paymentAlert] }
      else s := by
  cases fuel with
  | zero => exact absurd rfl hf
  | succ fuel =>
    rw [watchRun_succ]
    by_cases hp : padPendingWatch s
    · rw [if_pos hp, if_pos hp]
      simp only [if_pos h]
    · rw [if_neg hp, if_neg hp]

/-- Two units of fuel are enough for any chain of watcher runs: adding
fuel never changes the result. -/
theorem watchRun_stable (fuel : Nat) (s : PayFeesState) :
    watchRun (fuel + 2) s = watchRun 2 s := by
  show watchRun (fuel + 1 + 1) s = watchRun (1 + 1) s
  rw [watchRun_succ (fuel + 1) s, watchRun_succ 1 s]
  by_cases hp : padPendingWatch s
  · rw [if_pos hp, if_pos hp]
    by_cases hd : s.userSelectedPaymentMethod = PaymentMethod.DIRECT_PAY
    · simp only [if_pos hd]
    · simp only [if_neg hd]
      rw [watchRun_direct (fuel + 1) _ (Nat.succ_ne_zero fuel) rfl,
        watchRun_direct 1 _ (Nat.succ_ne_zero 0) rfl]
  · rw [if_neg hp, if_neg hp]

/-- C3: evaluation at the failing input.  With the cached snapshot in
PENDING_PAD_ACTIVATION, changing the selected method to PAD does revert it
to DIRECT_PAY and does terminate (extra watcher fuel changes nothing), but
TWO identical PAYMENT_METHOD alerts are recorded, not one: the corrective
write re-triggers the watcher, whose body alerts unconditionally. -/
theorem c3_pending_pad_double_alert :
    (setUserSelectedPaymentMethod pendingPadState PaymentMethod.PAD).userSelectedPaymentMethod
        = PaymentMethod.DIRECT_PAY ∧
      (setUserSelectedPaymentMethod pendingPadState PaymentMethod.PAD).alerts
        = [paymentAlert, paymentAlert] ∧
      ∀ extra : Nat,
        watchRun (extra + 2)
            { pendingPadState with userSelectedPaymentMethod := PaymentMethod.PAD }
          = watchRun 2
            { pendingPadState with userSelectedPaymentMethod := PaymentMethod.PAD } :=
  ⟨by decide, by decide,
    fun extra => watchRun_stable extra
      { pendingPadState with userSelectedPaymentMethod := PaymentMethod.PAD }⟩

/-- bumpQuantity does not change the match predicate. -/
theorem feeMatches_bumpQuantity (t : FeeInfo) (x : PayFeesWidgetItem) :
    feeMatches t (bumpQuantity x) = feeMatches t x := by
  cases hq : x.quantity <;> simp [bumpQuantity, hq, feeMatches]

/-- A freshly pushed entry matches its own fee. -/
theorem feeMatches_mk (f : FeeInfo) (q : Option Int) (u : Nat) :
    feeMatches f { fee := f, quantity := q, uiUuid := u } = true := by
  simp [feeMatches]

/-- C4 counterexample: a ledger entry with undefined quantity.  addFee
sets the quantity to 1 and removeFee then deletes the entry outright, so
addFee followed by removeFee with the same item does not restore the
ledger. -/
theorem c4_counterexample :
    (removeFee (addFee ledgerUndefQuantity sampleFee) sampleFee).fees = [] ∧
      ledgerUndefQuantity.fees ≠ [] := by
  refine ⟨by decide, by decide⟩

/-- C4 amended: on any ledger whose entries all have a defined quantity of
at least 1 (which covers every state reachable from the empty ledger),
addFee followed by removeFee with the same item restores the fees list
exactly; when the addFee created a new entry, the fresh-identifier supply
has advanced, so the deleted uiUuid is never reused. -/
theorem c4_add_remove_inverse (s : PayFeesState) (f : FeeInfo)
    (hq : ∀ x ∈ s.fees, quantityOk x = true) :
    (removeFee (addFee s f) f).fees = s.fees ∧
      (s.fees.find? (feeMatches f) = none → invalidFee f = false →
        (removeFee (addFee s f) f).nextUuid = s.nextUuid + 1) := by
  cases hf : s.fees.find? (feeMatches f) with
  | some a =>
    obtain ⟨l₁, l₂, hl, hall, hpa⟩ := find?_decomp hf
    have hqa : quantityOk a = true := hq a (by rw [hl]; simp)
    obtain ⟨n, hn⟩ : ∃ n, a.quantity = some n := by
      cases hqn : a.quantity with
      | none => rw [quantityOk, hqn] at hqa; exact absurd hqa (by simp)
      | some m => exact ⟨m, rfl⟩
    have hn1 : 1 ≤ n := by
      rw [quantityOk, hn] at hqa; simpa using hqa
    have hbq : (bumpQuantity a).quantity = some (n + 1) := by
      rw [bumpQuantity, hn]
    have ha : addFee s f = { s with fees := l₁ ++ bumpQuantity a :: l₂ } := by
      unfold addFee
      rw [hf, hl, updateFirst_middle bumpQuantity l₂ hall hpa]
    have hpb : feeMatches f (bumpQuantity a) = true := by
      rw [feeMatches_bumpQuantity]; exact hpa
    have hfind2 :
        (l₁ ++ bumpQuantity a :: l₂).find? (feeMatches f) = some (bumpQuantity a) :=
      find?_middle l₂ hall hpb
    have hdec : decQuantity (bumpQuantity a) = a := by
      obtain ⟨af, aq, au⟩ := a
      dsimp only at hn
      subst hn
      simp [bumpQuantity, decQuantity]
    have hcond : (!((n + 1 : Int) == 0) && decide (1 < (n + 1 : Int))) = true := by
      have h1 : (n + 1 : Int) ≠ 0 := by omega
      have h2 : (1 : Int) < n + 1 := by omega
      simp [h1, h2]
    have hrem : removeFee (addFee s f) f = s := by
      rw [ha]
      unfold removeFee
      dsimp only
      rw [hfind2]
      dsimp only
      rw [hbq]
      dsimp only
      rw [if_pos hcond]
      rw [updateFirst_middle decQuantity l₂ hall hpb, hdec, ← hl]
    constructor
    · rw [hrem]
    · intro h
      exact absurd h (by simp [hf])
  | none =>
    have hall := all_false_of_find?_none hf
    by_cases hv : invalidFee f = true
    · have ha : addFee s f = { s with consoleErrors := s.consoleErrors + 1 } := by
        unfold addFee
        rw [hf, hv]
        simp
      have hrem : removeFee (addFee s f) f
          = { s with consoleErrors := s.consoleErrors + 1 } := by
        rw [ha]
        unfold removeFee
        dsimp only
        rw [hf]
        dsimp only
        rw [if_neg (by simp)]
        rw [firstIdx_none hall]
      constructor
      · rw [hrem]
      · intro _ hvf
        rw [hv] at hvf
        exact absurd hvf (by simp)
    · have hvf : invalidFee f = false := by
        cases hvv : invalidFee f
        · rfl
        · exact absurd hvv hv
      have ha : addFee s f =
          { s with
            fees := s.fees ++
              [({ fee := f, quantity := some 1, uiUuid := s.nextUuid } : PayFeesWidgetItem)]
            nextUuid := s.nextUuid + 1 } := by
        unfold addFee
        rw [hf, hvf]
        simp
      have hpn : feeMatches f
          ({ fee := f, quantity := some 1, uiUuid := s.nextUuid } : PayFeesWidgetItem)
          = true :=
        feeMatches_mk f (some 1) s.nextUuid
      have hfind2 :
          (s.fees ++
              [({ fee := f, quantity := some 1, uiUuid := s.nextUuid } : PayFeesWidgetItem)]).find?
              (feeMatches f)
            = some ({ fee := f, quantity := some 1, uiUuid := s.nextUuid } : PayFeesWidgetItem) :=
        find?_middle [] hall hpn
      have hidx :
          firstIdx (feeMatches f)
              (s.fees ++
                [({ fee := f, quantity := some 1, uiUuid := s.nextUuid } : PayFeesWidgetItem)])
            = some s.fees.length :=
        firstIdx_middle [] hall hpn
      have hsplice :
          spliceOne
              (s.fees ++
                [({ fee := f, quantity := some 1, uiUuid := s.nextUuid } : PayFeesWidgetItem)])
              s.fees.length
            = s.fees := by
        have hsp := spliceOne_middle s.fees
          ({ fee := f, quantity := some 1, uiUuid := s.nextUuid } : PayFeesWidgetItem) []
        simpa using hsp
      have hrem : removeFee (addFee s f) f = { s with nextUuid := s.nextUuid + 1 } := by
        rw [ha]
        unfold removeFee
        dsimp only
        rw [hfind2]
        dsimp only
        rw [if_neg (by decide)]
        rw [hidx]
        dsimp only
        rw [hsplice]
      constructor
      · rw [hrem]
      · intro _ _
        rw [hrem]


/-- Witness for C4 amended: adding then removing the sample fee on a
ledger already holding it with quantity 1 restores the ledger. -/
theorem c4_add_remove_inverse_witness :
    (removeFee (addFee ledgerWithSample sampleFee) sampleFee).fees
      = ledgerWithSample.fees :=
  (c4_add_remove_inverse ledgerWithSample sampleFee (by decide)).1

/-- Characterization of the batch loop: the folio-independent part of
loadFeeTypesAndCharges performs one fetch per item, strictly in list
order, appending exactly the successful results. -/
theorem loadLoop_spec (fetch : FeeData → Option FeeInfo) :
    ∀ (batch : List FeeData) (s : PayFeesState),
      loadLoop fetch s batch =
        { s with
          fetchCalls := s.fetchCalls + batch.length
          feeInfo := s.feeInfo ++
            batch.filterMap (fun d => (fetch d).map (fun fi => (d, fi))) } := by
  intro batch
  induction batch with
  | nil => intro s; simp [loadLoop]
  | cons d rest ih =>
    intro s
    simp only [loadLoop]
    cases hd : fetch d with
    | some fi =>
      simp only [hd]
      rw [ih]
      ext <;> simp [List.filterMap_cons, hd, List.append_assoc]
      omega
    | none =>
      simp only [hd]
      rw [ih]
      ext <;> simp [List.filterMap_cons, hd]
      omega

/-- C6: loadFeeTypesAndCharges records the folio number, performs exactly
one remote fetch per batch item, strictly in list order, appends to the
cache exactly the pairs whose fetch resolved, skipping every item whose
fetch failed (resolved undefined), and leaves all other state unchanged.
Failures do not abort the batch: every item contributes its fetch call and
every later success is still cached. -/
theorem c6_loadFeeTypesAndCharges_spec (fetch : FeeData → Option FeeInfo)
    (s : PayFeesState) (folio : String) (batch : List FeeData) :
    loadFeeTypesAndCharges fetch s folio batch =
      { s with
        folioNumber := folio
        fetchCalls := s.fetchCalls + batch.length
        feeInfo := s.feeInfo ++
          batch.filterMap (fun d => (fetch d).map (fun fi => (d, fi))) } := by
  unfold loadFeeTypesAndCharges
  rw [loadLoop_spec]

/-- A getFeeInfo call with tryLoadIfNotCached false never changes the
state. -/
theorem getFeeInfo_false_snd (fetch : FeeData → Option FeeInfo)
    (s : PayFeesState) (d : FeeData) :
    (getFeeInfo fetch s d false).2 = s := by
  rw [getFeeInfo]
  cases hf : s.feeInfo.find? (feeInfoMatches d) with
  | some e => rfl
  | none => rfl

/-- C5: once the (entityType, filingTypeCode) key is cached, getFeeInfo
with tryLoadIfNotCached true returns the first cached entry and changes
nothing (in particular no fetchFee call is issued); on a miss it performs
exactly one single-item load (one fetchFee call) and retries once with
tryLoadIfNotCached false, which never loads again. -/
theorem c5_getFeeInfo_cached_idempotent (fetch : FeeData → Option FeeInfo)
    (s : PayFeesState) (d : FeeData) :
    (∀ e, s.feeInfo.find? (feeInfoMatches d) = some e →
        getFeeInfo fetch s d true = (some e.2, s)) ∧
      (s.feeInfo.find? (feeInfoMatches d) = none →
        getFeeInfo fetch s d true
            = getFeeInfo fetch
                (loadFeeTypesAndCharges fetch s s.folioNumber [d]) d false ∧
          (getFeeInfo fetch s d true).2.fetchCalls = s.fetchCalls + 1) ∧
      (s.feeInfo.find? (feeInfoMatches d) = none →
        getFeeInfo fetch s d false = (none, s)) := by
  refine ⟨?_, ?_, ?_⟩
  · intro e h
    rw [getFeeInfo, h]
  · intro h
    constructor
    · rw [getFeeInfo, h]
    · rw [getFeeInfo, h]
      dsimp only
      rw [getFeeInfo_false_snd]
      unfold loadFeeTypesAndCharges
      rw [loadLoop_spec]
      simp
  · intro h
    rw [getFeeInfo, h]

/-- Witness for C5 at a concrete cached state: the lookup returns the
cached record and leaves the state untouched even though the oracle knows
nothing. -/
theorem c5_getFeeInfo_cached_idempotent_witness :
    getFeeInfo emptyOracle cachedState sampleFeeData true
      = (some sampleFee, cachedState) :=
  (c5_getFeeInfo_cached_idempotent emptyOracle cachedState sampleFeeData).1
    (sampleFeeData, sampleFee) rfl

/-- An assignment to the selected method on a state whose watcher
condition is false just writes the value. -/
theorem setSelected_no_watch (s : PayFeesState) (m : PaymentMethod)
    (h : padPendingWatch { s with userSelectedPaymentMethod := m } = false) :
    setUserSelectedPaymentMethod s m =
      { s with userSelectedPaymentMethod := m } := by
  unfold setUserSelectedPaymentMethod
  by_cases hd : s.userSelectedPaymentMethod = m
  · rw [if_pos hd]
    ext <;> simp [hd]
  · rw [if_neg hd]
    rw [show watchFuel = 1 + 1 from rfl, watchRun_succ]
    rw [if_neg (by simp [h])]

/-- The first revision resetPaymentOptions clears the snapshot, selects
PAD, clears the alternate flag and the allowed list, and touches nothing
else (the watcher stays silent since the snapshot is cleared first). -/
theorem resetPaymentOptions_spec (s : PayFeesState) :
    resetPaymentOptions s =
      { s with
        userPaymentAccount := emptyAccount
        userSelectedPaymentMethod := PaymentMethod.PAD
        allowAlternatePaymentMethod := false
        allowedPaymentMethods := [] } := by
  unfold resetPaymentOptions
  dsimp only
  rw [setSelected_no_watch { s with userPaymentAccount := emptyAccount }
    PaymentMethod.PAD rfl]

/-- The second revision resetPaymentOptions selects DIRECT_PAY where the
first selects PAD; the rest is identical. -/
theorem rev2_resetPaymentOptions_spec (s : PayFeesState) :
    Rev2.resetPaymentOptions s =
      { s with
        userPaymentAccount := emptyAccount
        userSelectedPaymentMethod := PaymentMethod.DIRECT_PAY
        allowAlternatePaymentMethod := false
        allowedPaymentMethods := [] } := by
  unfold Rev2.resetPaymentOptions
  dsimp only
  rw [setSelected_no_watch { s with userPaymentAccount := emptyAccount }
    PaymentMethod.DIRECT_PAY rfl]

/-- C7: when the remote account fetch fails, initPaymentMethod leaves the
selector state exactly as resetPaymentOptions produced it (snapshot
cleared, PAD selected, no allowed methods), allowAlternatePaymentMethod
stays false, one diagnostic is logged, and exactly one PAYMENT_METHOD
alert is appended; no partial snapshot is retained. -/
theorem c7_initPaymentMethod_failure (s : PayFeesState) :
    initPaymentMethod (Except.error ()) s =
      { resetPaymentOptions s with
        consoleErrors := (resetPaymentOptions s).consoleErrors + 1
        alerts := (resetPaymentOptions s).alerts ++ [paymentAlert] } ∧
      (initPaymentMethod (Except.error ()) s).allowAlternatePaymentMethod
        = false ∧
      (initPaymentMethod (Except.error ()) s).userPaymentAccount
        = (resetPaymentOptions s).userPaymentAccount ∧
      (initPaymentMethod (Except.error ()) s).userSelectedPaymentMethod
        = (resetPaymentOptions s).userSelectedPaymentMethod ∧
      (initPaymentMethod (Except.error ()) s).allowedPaymentMethods
        = (resetPaymentOptions s).allowedPaymentMethods ∧
      (initPaymentMethod (Except.error ()) s).alerts
        = s.alerts ++ [paymentAlert] := by
  have hr := resetPaymentOptions_spec s
  refine ⟨rfl, ?_, rfl, rfl, rfl, ?_⟩
  · show (resetPaymentOptions s).allowAlternatePaymentMethod = false
    rw [hr]
  · show (resetPaymentOptions s).alerts ++ [paymentAlert]
      = s.alerts ++ [paymentAlert]
    rw [hr]

/-- C8 counterexample: the second revision resetPaymentOptions selects
DIRECT_PAY, not PAD, refuting the claim that both revisions select PAD. -/
theorem c8_counterexample :
    (Rev2.resetPaymentOptions initialState).userSelectedPaymentMethod
      ≠ PaymentMethod.PAD := by
  decide

/-- C8 amended: after every resetPaymentOptions call the snapshot is
empty, allowAlternatePaymentMethod is false and the allowed list is empty
in both revisions; the selected method becomes PAD in the first revision
but DIRECT_PAY in the second. -/
theorem c8_resetPaymentOptions_both_revisions (s : PayFeesState) :
    resetPaymentOptions s =
      { s with
        userPaymentAccount := emptyAccount
        userSelectedPaymentMethod := PaymentMethod.PAD
        allowAlternatePaymentMethod := false
        allowedPaymentMethods := [] } ∧
      Rev2.resetPaymentOptions s =
        { s with
          userPaymentAccount := emptyAccount
          userSelectedPaymentMethod := PaymentMethod.DIRECT_PAY
          allowAlternatePaymentMethod := false
          allowedPaymentMethods := [] } :=
  ⟨resetPaymentOptions_spec s, rev2_resetPaymentOptions_spec s⟩

/-- C9: the $reset action clears exactly the fee list, the folio number
and the fee-info cache in one pure step, and leaves every other field of
the store unchanged. -/
theorem c9_reset_frame (s : PayFeesState) :
    resetStore s = { s with fees := [], folioNumber := "", feeInfo := [] } ∧
      (resetStore s).userPaymentAccount = s.userPaymentAccount ∧
      (resetStore s).userSelectedPaymentMethod = s.userSelectedPaymentMethod ∧
      (resetStore s).allowedPaymentMethods = s.allowedPaymentMethods ∧
      (resetStore s).allowAlternatePaymentMethod
        = s.allowAlternatePaymentMethod ∧
      (resetStore s).alerts = s.alerts ∧
      (resetStore s).consoleErrors = s.consoleErrors :=
  ⟨rfl, rfl, rfl, rfl, rfl, rfl, rfl⟩

/-- The two revisions of the batch loop agree. -/
theorem rev2_loadLoop_eq (fetch : FeeData → Option FeeInfo)
    (batch : List FeeData) :
    ∀ s : PayFeesState, Rev2.loadLoop fetch s batch = loadLoop fetch s batch := by
  induction batch with
  | nil => intro s; rfl
  | cons d rest ih =>
    intro s
    simp only [Rev2.loadLoop, loadLoop]
    exact ih _

/-- The two revisions of loadFeeTypesAndCharges agree. -/
theorem rev2_loadFeeTypesAndCharges_eq (fetch : FeeData → Option FeeInfo)
    (s : PayFeesState) (folio : String) (batch : List FeeData) :
    Rev2.loadFeeTypesAndCharges fetch s folio batch
      = loadFeeTypesAndCharges fetch s folio batch := by
  unfold Rev2.loadFeeTypesAndCharges loadFeeTypesAndCharges
  exact rev2_loadLoop_eq fetch batch _

/-- The two revisions of getFeeInfo agree with tryLoadIfNotCached
false. -/
theorem rev2_getFeeInfo_false_eq (fetch : FeeData → Option FeeInfo)
    (s : PayFeesState) (d : FeeData) :
    Rev2.getFeeInfo fetch s d false = getFeeInfo fetch s d false := by
  rw [Rev2.getFeeInfo, getFeeInfo]

/-- The two revisions of getFeeInfo agree. -/
theorem rev2_getFeeInfo_eq (fetch : FeeData → Option FeeInfo)
    (s : PayFeesState) (d : FeeData) (t : Bool) :
    Rev2.getFeeInfo fetch s d t = getFeeInfo fetch s d t := by
  cases t with
  | false => exact rev2_getFeeInfo_false_eq fetch s d
  | true =>
    rw [Rev2.getFeeInfo, getFeeInfo]
    cases hf : s.feeInfo.find? (feeInfoMatches d) with
    | some e => rfl
    | none =>
      dsimp only
      rw [rev2_loadFeeTypesAndCharges_eq]
      exact rev2_getFeeInfo_false_eq fetch _ d

/-- The two revisions of addPayFees agree. -/
theorem rev2_addPayFees_eq (fetch : FeeData → Option FeeInfo)
    (feeType : String → Option FeeData) (s : PayFeesState) (feeCode : String) :
    Rev2.addPayFees fetch feeType s feeCode
      = addPayFees fetch feeType s feeCode := by
  unfold Rev2.addPayFees addPayFees
  cases hc : feeType feeCode with
  | none => rfl
  | some fee =>
    dsimp only
    rw [rev2_getFeeInfo_eq, show Rev2.addFee = addFee from rfl]

/-- C10: the Fee Ledger operations of the two duplicated store revisions
are extensionally equal: addFee, removeFee, loadFeeTypesAndCharges,
getFeeInfo, addPayFees and the reset action produce identical results and
identical store states for every input and every starting state. -/
theorem c10_revisions_extensionally_equal :
    (∀ (s : PayFeesState) (f : FeeInfo), Rev2.addFee s f = addFee s f) ∧
      (∀ (s : PayFeesState) (f : FeeInfo), Rev2.removeFee s f = removeFee s f) ∧
      (∀ (fetch : FeeData → Option FeeInfo) (s : PayFeesState)
          (folio : String) (batch : List FeeData),
        Rev2.loadFeeTypesAndCharges fetch s folio batch
          = loadFeeTypesAndCharges fetch s folio batch) ∧
      (∀ (fetch : FeeData → Option FeeInfo) (s : PayFeesState)
          (d : FeeData) (t : Bool),
        Rev2.getFeeInfo fetch s d t = getFeeInfo fetch s d t) ∧
      (∀ (fetch : FeeData → Option FeeInfo) (feeType : String → Option FeeData)
          (s : PayFeesState) (feeCode : String),
        Rev2.addPayFees fetch feeType s feeCode
          = addPayFees fetch feeType s feeCode) ∧
      (∀ s : PayFeesState, Rev2.resetStore s = resetStore s) :=
  ⟨fun _ _ => rfl, fun _ _ => rfl,
    rev2_loadFeeTypesAndCharges_eq, rev2_getFeeInfo_eq, rev2_addPayFees_eq,
    fun _ => rfl⟩
